import Mathlib

/-! Shallow embedding of the `python-kle` library (`src/kle/kle.py`): the 2D
point algebra, the rotation-aware key geometry engine, the property value
objects, the row/column layout parser, the serializer and the mirror
operation, followed by theorems settling the specification's claims.
Python floats are modelled by real numbers, so "up to floating-point
tolerance" statements become exact equalities; mutation is modelled by
functional update, and `raise` by an `Except` error value. -/

namespace KLE

/-- Embeds the `Point` namedtuple: an (x, y) pair of reals. -/
@[ext]
structure Point where
  x : ℝ
  y : ℝ

/-- Point `__add__`. -/
instance : Add Point := ⟨fun p q => ⟨p.x + q.x, p.y + q.y⟩⟩

/-- Point `__sub__`. -/
instance : Sub Point := ⟨fun p q => ⟨p.x - q.x, p.y - q.y⟩⟩

/-- Point `__neg__`. -/
instance : Neg Point := ⟨fun p => ⟨-p.x, -p.y⟩⟩

/-- Point `__mul__` by a scalar. -/
instance : HMul Point ℝ Point := ⟨fun p c => ⟨p.x * c, p.y * c⟩⟩

/-- Point `__truediv__` by a scalar. -/
noncomputable instance : HDiv Point ℝ Point := ⟨fun p c => ⟨p.x / c, p.y / c⟩⟩

/-- Embeds the `Rect` namedtuple: an axis-aligned (x, y, w, h) box. -/
structure Rect where
  x : ℝ
  y : ℝ
  w : ℝ
  h : ℝ

/-- Membership of a point in an axis-aligned rectangle; this is the sense in
which the specification asks `bounding_box` to contain the corner points. -/
def Rect.containsPt (r : Rect) (p : Point) : Prop :=
  r.x ≤ p.x ∧ p.x ≤ r.x + r.w ∧ r.y ≤ p.y ∧ p.y ≤ r.y + r.h

/-- Embeds `math.radians`: degrees to radians. -/
noncomputable def radians (deg : ℝ) : ℝ := deg * Real.pi / 180

/-- Embeds `rotate_complex(radians) = cmath.exp(radians*1j)`. -/
noncomputable def rotate_complex (rad : ℝ) : ℂ := Complex.exp ((rad : ℂ) * Complex.I)

/-- Embeds the `KLEParseError` exception class (carrying its message). -/
structure KLEParseError where
  msg : String
  deriving DecidableEq

/-- A raised Python exception. `KLEKey.__init__` executes
`raise Exception(KLEParseError(...))`, i.e. the object actually raised is a
bare builtin `Exception` whose argument is a `KLEParseError` instance; the
`exception` constructor records that shape, and `kleParseError` records a
directly raised `KLEParseError` (which the source never performs). -/
inductive PyErr where
  | exception (arg : KLEParseError)
  | kleParseError (e : KLEParseError)
  deriving DecidableEq

/-- Embeds `KLEKey.LEGEND_MAP`, the fixed legend-slot to anchor table,
listed in slot order 0..11. -/
def LEGEND_MAP : List (Int × Int) :=
  [(-1, -1), (-1, 1), (1, -1), (1, 1), (-1, 2), (1, 2),
   (-1, 0), (1, 0), (0, -1), (0, 0), (0, 1), (0, 2)]

/-- Embeds `max_legends = len(KLEKey.LEGEND_MAP)`. -/
def max_legends : Nat := LEGEND_MAP.length

/-- Splits a character list at every occurrence of `sep`, keeping empty
segments, exactly like Python `str.split` with an explicit separator. -/
def splitOnChar (sep : Char) : List Char → List (List Char)
  | [] => [[]]
  | c :: cs =>
    if c = sep then [] :: splitOnChar sep cs
    else
      match splitOnChar sep cs with
      | [] => [[c]]
      | r :: rs => (c :: r) :: rs

/-- Embeds Python `text.split("\n")`. -/
def pySplitNL (s : String) : List String :=
  (splitOnChar (Char.ofNat 10) s.data).map String.mk

/-- Embeds Python `s.strip(c)` for a single character: removes every copy of
`c` from both ends of the string. -/
def pyStrip (c : Char) (s : String) : String :=
  String.mk (((s.data.dropWhile (fun a => a = c)).reverse.dropWhile
    (fun a => a = c)).reverse)

/-- Embeds `KbProperties`: the persistent keyboard-scoped style and rotation
settings. -/
structure KbProperties where
  bg : String
  fg : String
  ghosted : Bool
  profile : Option String
  text_alignment : Option Int
  font_primary : Int
  font_secondary : Int
  r : ℝ
  rx : ℝ
  ry : ℝ

/-- Embeds `KbProperties()` with its default arguments (the constructor body
hardcodes `ghosted`, `profile`, `text_alignment` and the two font indices
regardless of the parameters, and the library only ever calls it with no
arguments). -/
def KbProperties.default : KbProperties :=
  { bg := "#ffffff", fg := "#000000", ghosted := false, profile := none,
    text_alignment := none, font_primary := 3, font_secondary := 3,
    r := 0, rx := 0, ry := 0 }

/-- Embeds a JSON object item of the layout, with one optional slot per
field name the parser ever looks up (`KeyProperties.from_json` reads
x,y,w,h,x2,y2,w2,h2,d,l,n; `KbProperties.update` reads
c,t,g,a,f,f2,p,r,rx,ry); `isSome` models Python's `'field' in obj`. -/
structure JsonObj where
  x : Option ℝ
  y : Option ℝ
  w : Option ℝ
  h : Option ℝ
  x2 : Option ℝ
  y2 : Option ℝ
  w2 : Option ℝ
  h2 : Option ℝ
  d : Option Bool
  l : Option Bool
  n : Option Bool
  c : Option String
  t : Option String
  g : Option Bool
  a : Option Int
  f : Option Int
  f2 : Option Int
  p : Option String
  r : Option ℝ
  rx : Option ℝ
  ry : Option ℝ

/-- The JSON object with no fields present. -/
def JsonObj.empty : JsonObj :=
  ⟨none, none, none, none, none, none, none, none, none, none, none,
   none, none, none, none, none, none, none, none, none, none⟩

/-- Embeds `KbProperties.update(obj)`: each recognized field present in the
object overwrites the stored one, absent fields are left unchanged. -/
def KbProperties.update (kp : KbProperties) (obj : JsonObj) : KbProperties :=
  { bg := obj.c.getD kp.bg,
    fg := obj.t.getD kp.fg,
    ghosted := obj.g.getD kp.ghosted,
    text_alignment := match obj.a with
      | some v => some v
      | none => kp.text_alignment,
    font_primary := obj.f.getD kp.font_primary,
    font_secondary := obj.f2.getD kp.font_secondary,
    profile := match obj.p with
      | some v => some v
      | none => kp.profile,
    r := obj.r.getD kp.r,
    rx := obj.rx.getD kp.rx,
    ry := obj.ry.getD kp.ry }

/-- Embeds `KeyProperties`: the pending per-key positional deltas and shape
flags. -/
structure KeyProperties where
  x : ℝ
  y : ℝ
  w : ℝ
  h : ℝ
  x2 : Option ℝ
  y2 : Option ℝ
  w2 : Option ℝ
  h2 : Option ℝ
  rx : Option ℝ
  ry : Option ℝ
  stepped : Bool
  homing : Bool
  decal : Bool

/-- Embeds `KeyProperties()`: the constructor body always stores
x=0, y=0, w=1, h=1 defaults for explicit calls with no arguments, `None`
for the secondary rectangle and rotation-origin slots, and `False` for the
three flags (the extra constructor parameters are ignored by the body). -/
def KeyProperties.default : KeyProperties :=
  { x := 0, y := 0, w := 1, h := 1, x2 := none, y2 := none, w2 := none,
    h2 := none, rx := none, ry := none, stepped := false, homing := false,
    decal := false }

/-- Embeds `KeyProperties.from_json(obj)`: a fresh default object with every
recognized present field overwritten. -/
def KeyProperties.from_json (obj : JsonObj) : KeyProperties :=
  { x := obj.x.getD 0, y := obj.y.getD 0, w := obj.w.getD 1, h := obj.h.getD 1,
    x2 := obj.x2, y2 := obj.y2, w2 := obj.w2, h2 := obj.h2,
    rx := none, ry := none,
    stepped := obj.l.getD false, homing := obj.n.getD false,
    decal := obj.d.getD false }

/-- Emits `[(name, v)]` when the optional field is present, else nothing;
models the `value != None` filter of `KeyProperties.to_json`. -/
def optField (name : String) (v : Option ℝ) : List (String × ℝ) :=
  match v with
  | some x => [(name, x)]
  | none => []

/-- Embeds `KeyProperties.to_json`: the fields x,y,w,h,x2,y2,w2,h2,rx,ry in
that order, each emitted exactly when its value is not `None` (x, y, w, h
are plain floats in the source, hence always emitted). -/
def KeyProperties.to_json (kp : KeyProperties) : List (String × ℝ) :=
  [("x", kp.x), ("y", kp.y), ("w", kp.w), ("h", kp.h)]
    ++ optField "x2" kp.x2 ++ optField "y2" kp.y2
    ++ optField "w2" kp.w2 ++ optField "h2" kp.h2
    ++ optField "rx" kp.rx ++ optField "ry" kp.ry

/-- Embeds `KLEKey`: stored unit-space geometry, rotation data captured from
the keyboard properties at construction time, spacing, decal flag, the
captured `KbProperties` snapshot and the 12 legend slots. Field names keep
the source's underscore-prefixed attribute names; the Python `@property`
accessors are separate definitions below. -/
@[ext]
structure KLEKey where
  _u_x : ℝ
  _u_y : ℝ
  _u_w : ℝ
  _u_h : ℝ
  _spacing : ℝ
  decal : Bool
  properties : KbProperties
  _r : ℝ
  _u_rx : ℝ
  _u_ry : ℝ
  _legends : Fin 12 → String

/-- Embeds `KLEKey.__init__(ux, uy, uw, uh, text, properties, decal,
spacing)`. A missing `properties` argument gives a fresh default
`KbProperties`; a supplied one is value-copied (`copy.copy`). The legend
text is split on newlines; more than 12 segments executes
`raise Exception(KLEParseError(...))`, else slot `i` holds segment `i` when
it exists and `""` otherwise (the final loop of the source re-writing
missing slots is a no-op and is not modelled). -/
def KLEKey.mk? (ux uy uw uh : ℝ) (text : String)
    (properties : Option KbProperties) (decal : Bool) (spacing : ℝ) :
    Except PyErr KLEKey :=
  let props := match properties with
    | none => KbProperties.default
    | some kp => kp
  let legends := pySplitNL text
  if legends.length > max_legends then
    .error (.exception ⟨"Too many legends for key. Got " ++
      toString legends.length ++ ", max is " ++ toString max_legends⟩)
  else
    .ok { _u_x := ux * 1, _u_y := uy * 1, _u_w := uw * 1, _u_h := uh * 1,
          _spacing := spacing, decal := decal, properties := props,
          _r := props.r, _u_rx := props.rx, _u_ry := props.ry,
          _legends := fun i => legends.getD i.val "" }

/-- Embeds `KLEKey.get_legend(key)`; the `Fin 12` index carries the source's
`assert key in LEGEND_MAP` (slots are exactly 0..11). -/
def KLEKey.get_legend (k : KLEKey) (slot : Fin 12) : String := k._legends slot

/-- Embeds the `KLEKey.get_legend_str` loop: concatenate every slot followed
by a newline, then strip newlines from both ends (`result.strip("\n")`). -/
def KLEKey.get_legend_str (k : KLEKey) : String :=
  pyStrip (Char.ofNat 10)
    ((List.finRange 12).foldl (fun acc i => acc ++ k._legends i ++ "\x0a") "")

/-- Embeds the property `KLEKey.w = spacing * u_w` (drawing-space width). -/
def KLEKey.w (k : KLEKey) : ℝ := k._spacing * k._u_w

/-- Embeds the property `KLEKey.h = spacing * u_h` (drawing-space height). -/
def KLEKey.h (k : KLEKey) : ℝ := k._spacing * k._u_h

/-- Embeds the property `KLEKey.r` (stored rotation angle in degrees). -/
def KLEKey.r (k : KLEKey) : ℝ := k._r

/-- Embeds the property `KLEKey.r_rad = math.radians(self._r)`. -/
noncomputable def KLEKey.r_rad (k : KLEKey) : ℝ := radians k._r

/-- Embeds `KLEKey.get_pos`: absolute position, computed in the complex
plane as `(rx + ry*1j) + (ux + uy*1j) * rotate_complex(r_rad)` scaled by
the spacing. -/
noncomputable def KLEKey.get_pos (k : KLEKey) : Point :=
  let rpos : ℂ := (k._u_rx : ℂ) + (k._u_ry : ℂ) * Complex.I
  let pos : ℂ :=
    (rpos + ((k._u_x : ℂ) + (k._u_y : ℂ) * Complex.I) * rotate_complex k.r_rad)
      * (k._spacing : ℂ)
  ⟨pos.re, pos.im⟩

/-- Embeds `KLEKey.set_pos(x, y)`: divide by the spacing, subtract the
rotation origin, rotate by the negated angle, store the unit coordinates. -/
noncomputable def KLEKey.set_pos (k : KLEKey) (x y : ℝ) : KLEKey :=
  let u_pos : Point := Point.mk x y / k._spacing
  let u_pos : Point := u_pos - Point.mk k._u_rx k._u_ry
  let z : ℂ := ((u_pos.x : ℂ) + (u_pos.y : ℂ) * Complex.I)
    * rotate_complex (-k.r_rad)
  { k with _u_x := z.re, _u_y := z.im }

/-- Embeds `KLEKey.get_rect_points`: the four absolute corners, obtained by
adding the rotated width and height edge vectors to the position. -/
noncomputable def KLEKey.get_rect_points (k : KLEKey) : List Point :=
  let pos0 := k.get_pos
  let pos : ℂ := (pos0.x : ℂ) + (pos0.y : ℂ) * Complex.I
  let edge_w : ℂ := ((k.w : ℂ) + 0) * rotate_complex k.r_rad
  let edge_h : ℂ := (0 + (k.h : ℂ) * Complex.I) * rotate_complex k.r_rad
  let v0 := pos
  let v1 := pos + edge_w
  let v2 := pos + edge_w + edge_h
  let v3 := pos + edge_h
  [⟨v0.re, v0.im⟩, ⟨v1.re, v1.im⟩, ⟨v2.re, v2.im⟩, ⟨v3.re, v3.im⟩]

/-- Embeds `KLEKey.get_center`: position plus half the rotated diagonal. -/
noncomputable def KLEKey.get_center (k : KLEKey) : Point :=
  let pos0 := k.get_pos
  let pos : ℂ := (pos0.x : ℂ) + (pos0.y : ℂ) * Complex.I
  let center : ℂ := pos +
    (1 / 2 : ℂ) * ((k.w : ℂ) + (k.h : ℂ) * Complex.I) * rotate_complex k.r_rad
  ⟨center.re, center.im⟩

/-- Embeds `KLEKey.set_center(x, y)`: compute the unrotated corner that
would produce this center and delegate to `set_pos`. -/
noncomputable def KLEKey.set_center (k : KLEKey) (x y : ℝ) : KLEKey :=
  let new_center : ℂ := (x : ℂ) + (y : ℂ) * Complex.I
  let corner : ℂ := new_center -
    (1 / 2 : ℂ) * ((k.w : ℂ) + (k.h : ℂ) * Complex.I) * rotate_complex k.r_rad
  k.set_pos corner.re corner.im

/-- Embeds `KLEKey.bounding_box`: the axis-aligned min/max rectangle over
the corner points. The source folds `min`/`max` starting from `±math.inf`;
since the corner list always has the four elements and `min`/`max` are
idempotent, seeding the folds with the first corner is the same value, and
`ℝ` has no infinities, so that is how the fold is rendered here. -/
noncomputable def KLEKey.bounding_box (k : KLEKey) : Rect :=
  let points := k.get_rect_points
  let x0 := (points.headD ⟨0, 0⟩).x
  let y0 := (points.headD ⟨0, 0⟩).y
  let xmin := points.foldl (fun acc pt => min acc pt.x) x0
  let ymin := points.foldl (fun acc pt => min acc pt.y) y0
  let xmax := points.foldl (fun acc pt => max acc pt.x) x0
  let ymax := points.foldl (fun acc pt => max acc pt.y) y0
  ⟨xmin, ymin, xmax - xmin, ymax - ymin⟩

/-- Embeds `KLEKey.set_angle(new_r)`: save the center, store the new angle,
restore the center. -/
noncomputable def KLEKey.set_angle (k : KLEKey) (new_r : ℝ) : KLEKey :=
  let pos := k.get_center
  let k1 := { k with _r := new_r }
  k1.set_center pos.x pos.y

/-- Embeds `KLEKey.get_u_pos`. -/
def KLEKey.get_u_pos (k : KLEKey) : Point := ⟨k._u_x, k._u_y⟩

/-- Embeds `KLEKey.set_u_pos(ux, uy, r=None, u_rx=None, u_ry=None)`. The
source guards each optional store with Python truthiness (`if r:` etc.), so
both `None` and `0` leave the stored field unchanged. -/
noncomputable def KLEKey.set_u_pos (k : KLEKey) (ux uy : ℝ)
    (r u_rx u_ry : Option ℝ) : KLEKey :=
  { k with
    _u_x := ux, _u_y := uy,
    _r := (match r with
      | some v => if v = 0 then k._r else v
      | none => k._r),
    _u_rx := (match u_rx with
      | some v => if v = 0 then k._u_rx else v
      | none => k._u_rx),
    _u_ry := (match u_ry with
      | some v => if v = 0 then k._u_ry else v
      | none => k._u_ry) }

/-- Embeds `KLEKey.get_properties`: a fresh `KeyProperties` holding the
stored unit coordinates, sizes and rotation origin. -/
def KLEKey.get_properties (k : KLEKey) : KeyProperties :=
  { KeyProperties.default with
    x := k._u_x, y := k._u_y, w := k._u_w, h := k._u_h,
    rx := some k._u_rx, ry := some k._u_ry }

/-- A JSON scalar value, for keyboard metadata entries (the parser copies
metadata fields verbatim and never inspects them). -/
inductive JsonValue where
  | str (s : String)
  | num (x : ℝ)
  | bool (b : Bool)
  | null

/-- Python dict assignment `d[k] = v`: replace the value of an existing key
in place, else append the new binding. -/
def dictInsert (m : List (String × JsonValue)) (key : String) (v : JsonValue) :
    List (String × JsonValue) :=
  if m.any (fun kv => kv.1 = key) then
    m.map (fun kv => if kv.1 = key then (key, v) else kv)
  else m ++ [(key, v)]

/-- An item inside a layout row: a legend string or a property object. -/
inductive KLEItem where
  | str (s : String)
  | obj (o : JsonObj)

/-- A top-level element of the layout array: a metadata object or a row. -/
inductive KLERow where
  | meta (m : List (String × JsonValue))
  | row (items : List KLEItem)

/-- Embeds `KLEKeyboard`: key list, cursor, counters, persistent properties,
spacing and metadata. -/
structure KLEKeyboard where
  keys : List KLEKey
  col : Int
  row : Int
  global_props : KbProperties
  cur_x : ℝ
  cur_y : ℝ
  spacing : ℝ
  metadata : List (String × JsonValue)

/-- Embeds `KLEKeyboard.__init__(spacing)`. -/
def KLEKeyboard.init (spacing : ℝ) : KLEKeyboard :=
  { keys := [], col := 0, row := -1, global_props := KbProperties.default,
    cur_x := 0, cur_y := 0, spacing := spacing, metadata := [] }

/-- Embeds `KLEKeyboard.add_row`: reset the column cursor, advance the row
cursor and counter (the source also stores a stray, never-read `_col`
attribute, which has no observable effect and is not modelled). -/
def KLEKeyboard.add_row (kb : KLEKeyboard) : KLEKeyboard :=
  { kb with cur_x := 0, cur_y := kb.cur_y + 1, row := kb.row + 1 }

/-- Embeds `KLEKeyboard.add_key(x, y, w, h, text, decal)`: advance the
cursor by the deltas, construct a key there capturing the current
`global_props`, append it, advance the cursor by the width. -/
def KLEKeyboard.add_key (kb : KLEKeyboard) (x y w h : ℝ) (text : String)
    (decal : Bool) : Except PyErr KLEKeyboard :=
  let cx := kb.cur_x + x
  let cy := kb.cur_y + y
  match KLEKey.mk? cx cy w h text (some kb.global_props) decal kb.spacing with
  | .error e => .error e
  | .ok key =>
    .ok { kb with
          keys := kb.keys ++ [key], cur_x := cx + w, cur_y := cy,
          col := kb.col + 1 }

/-- One step of the `from_json` item loop: a string item emits a key from
the pending properties and resets them; an object item replaces the pending
properties, merges the style fields into the persistent `global_props`, and
resets the column (resp. vertical) cursor when `rx` (resp. `ry`) is
present. -/
def processItem (st : KLEKeyboard × KeyProperties) :
    KLEItem → Except PyErr (KLEKeyboard × KeyProperties)
  | .str s =>
    match st.1.add_key st.2.x st.2.y st.2.w st.2.h s st.2.decal with
    | .error e => .error e
    | .ok kb => .ok (kb, KeyProperties.default)
  | .obj o =>
    let props := KeyProperties.from_json o
    let kb := { st.1 with global_props := st.1.global_props.update o }
    let kb := if o.rx.isSome then { kb with cur_x := 0 } else kb
    let kb := if o.ry.isSome then { kb with cur_y := 0 } else kb
    .ok (kb, props)

/-- The `from_json` item loop over one row. -/
def processItems (st : KLEKeyboard × KeyProperties) :
    List KLEItem → Except PyErr (KLEKeyboard × KeyProperties)
  | [] => .ok st
  | it :: rest =>
    match processItem st it with
    | .error e => .error e
    | .ok st2 => processItems st2 rest

/-- One step of the `from_json` row loop: a metadata object merges its
fields into the keyboard metadata and `continue`s (no `add_row`); a row
processes its items and then calls `add_row`. -/
def processRow (st : KLEKeyboard × KeyProperties) :
    KLERow → Except PyErr (KLEKeyboard × KeyProperties)
  | .meta m =>
    .ok ({ st.1 with
           metadata := m.foldl (fun md kv => dictInsert md kv.1 kv.2)
             st.1.metadata }, st.2)
  | .row items =>
    match processItems st items with
    | .error e => .error e
    | .ok st2 => .ok (st2.1.add_row, st2.2)

/-- The `from_json` row loop. -/
def processRows (st : KLEKeyboard × KeyProperties) :
    List KLERow → Except PyErr (KLEKeyboard × KeyProperties)
  | [] => .ok st
  | row :: rest =>
    match processRow st row with
    | .error e => .error e
    | .ok st2 => processRows st2 rest

/-- Embeds `KLEKeyboard.from_json(json_layout, spacing)`: fold the row loop
over a fresh keyboard with fresh pending properties. -/
def KLEKeyboard.from_json (layout : List KLERow) (spacing : ℝ) :
    Except PyErr KLEKeyboard :=
  match processRows (KLEKeyboard.init spacing, KeyProperties.default) layout with
  | .error e => .error e
  | .ok st => .ok st.1

/-- An element of the array produced by `KLEKeyboard.to_json`: the optional
metadata object, or one `[properties, legend]` pair per key. -/
inductive KLEOutEntry where
  | meta (m : List (String × JsonValue))
  | key (props : List (String × ℝ)) (legend : String)

/-- Embeds `KLEKeyboard.to_json`: the metadata object first when non-empty,
then one `[get_properties().to_json(), get_legend_str()]` pair per key in
creation order. -/
def KLEKeyboard.to_json (kb : KLEKeyboard) : List KLEOutEntry :=
  let metaPart : List KLEOutEntry :=
    match kb.metadata with
    | [] => []
    | _ => [KLEOutEntry.meta kb.metadata]
  metaPart ++ kb.keys.map (fun k =>
    KLEOutEntry.key k.get_properties.to_json k.get_legend_str)

/-- The two mirror axes accepted by `KLEKeyboard.mirror` (any other
argument leaves the local `mirror` variable unbound in the source). -/
inductive Axis where
  | x
  | y

/-- The reflection vector chosen by `KLEKeyboard.mirror` for each axis. -/
def mirrorVec : Axis → Point
  | .x => ⟨-1, 1⟩
  | .y => ⟨1, -1⟩

/-- The per-key body of the `KLEKeyboard.mirror` loop: reflect the center
through the axis and negate the rotation angle. -/
noncomputable def KLEKey.mirrorKey (m : Point) (k : KLEKey) : KLEKey :=
  let old_center := k.get_center
  let k1 := k.set_center (m.x * old_center.x) (m.y * old_center.y)
  k1.set_angle (-k1.r)

/-- Embeds `KLEKeyboard.mirror(axis)` over the whole key list. -/
noncomputable def KLEKeyboard.mirror (kb : KLEKeyboard) (axis : Axis) :
    KLEKeyboard :=
  { kb with keys := kb.keys.map (KLEKey.mirrorKey (mirrorVec axis)) }

/-! Verification-layer definitions: complex-plane views of the stored key
data used to reason about the geometry engine, and the concrete layouts and
keys that the claims are evaluated on. -/

/-- The stored unit offset `_u_x + _u_y*1j` as a complex number. -/
noncomputable def uxuyC (k : KLEKey) : ℂ :=
  (k._u_x : ℂ) + (k._u_y : ℂ) * Complex.I

/-- The stored rotation origin `_u_rx + _u_ry*1j` as a complex number. -/
noncomputable def rposC (k : KLEKey) : ℂ :=
  (k._u_rx : ℂ) + (k._u_ry : ℂ) * Complex.I

/-- The complex number whose real and imaginary parts `get_pos` returns. -/
noncomputable def posC (k : KLEKey) : ℂ :=
  (rposC k + uxuyC k * rotate_complex k.r_rad) * (k._spacing : ℂ)

/-- The complex number whose real and imaginary parts `set_pos x y`
stores into `_u_x`, `_u_y`. -/
noncomputable def storedC (k : KLEKey) (x y : ℝ) : ℂ :=
  (((x / k._spacing - k._u_rx : ℝ) : ℂ) +
    ((y / k._spacing - k._u_ry : ℝ) : ℂ) * Complex.I) *
    rotate_complex (-k.r_rad)

/-- The rotated half-diagonal `1/2 * (w + h*1j) * rotate_complex(r_rad)`
separating a key's position from its center. -/
noncomputable def deltaC (k : KLEKey) : ℂ :=
  (1 / 2 : ℂ) * ((k.w : ℂ) + (k.h : ℂ) * Complex.I) * rotate_complex k.r_rad

/-- The complex number whose real and imaginary parts `get_center`
returns. -/
noncomputable def centerC (k : KLEKey) : ℂ := posC k + deltaC k

/-- The corner `set_center x y` hands to `set_pos`. -/
noncomputable def cornerC (k : KLEKey) (x y : ℝ) : ℂ :=
  ((x : ℂ) + (y : ℂ) * Complex.I) - deltaC k

/-- A concrete key (unit position (2,3), unit size 1x1, spacing 1, angle 0,
origin (0,0), empty legends) used to instantiate the hypotheses of the
general theorems. -/
def sampleKey : KLEKey :=
  { _u_x := 2, _u_y := 3, _u_w := 1, _u_h := 1, _spacing := 1, decal := false,
    properties := KbProperties.default, _r := 0, _u_rx := 0, _u_ry := 0,
    _legends := fun _ => "" }

/-- A concrete one-key keyboard built around `sampleKey`. -/
def sampleKb : KLEKeyboard :=
  { keys := [sampleKey], col := 1, row := 0,
    global_props := KbProperties.default, cur_x := 3, cur_y := 0,
    spacing := 1, metadata := [] }

/-- The layout `[["A","B"], [{"w":2}, "C"]]` of claim C2. -/
def layoutC2 : List KLERow :=
  [KLERow.row [KLEItem.str "A", KLEItem.str "B"],
   KLERow.row [KLEItem.obj { JsonObj.empty with w := some 2 }, KLEItem.str "C"]]

/-- The layout `[[{"r":15},"A","B"], ["C"], [{"r":30},"D"]]` of claim C3:
the rotation angle set in row one must persist onto the captured snapshots
of keys A, B and C (C lives in a later row) and be overwritten for D. -/
def layoutC3 : List KLERow :=
  [KLERow.row [KLEItem.obj { JsonObj.empty with r := some 15 },
     KLEItem.str "A", KLEItem.str "B"],
   KLERow.row [KLEItem.str "C"],
   KLERow.row [KLEItem.obj { JsonObj.empty with r := some 30 },
     KLEItem.str "D"]]

/-- The keyboard produced by parsing the empty layout with spacing 1. -/
def emptyKb : KLEKeyboard := KLEKeyboard.init 1

/-- A legend text with 13 newline-separated segments (claim C6). -/
def text13 : String := "a\nb\nc\nd\ne\nf\ng\nh\ni\nj\nk\nl\nm"

/-- A legend text with exactly 12 newline-separated segments (claim C6). -/
def text12 : String := "a\nb\nc\nd\ne\nf\ng\nh\ni\nj\nk\nl"

/-- The key `KLEKey.mk? 0 0 1 1 text12 none false 19` evaluates to. -/
def key12 : KLEKey :=
  { _u_x := 0 * 1, _u_y := 0 * 1, _u_w := 1 * 1, _u_h := 1 * 1,
    _spacing := 19, decal := false, properties := KbProperties.default,
    _r := KbProperties.default.r, _u_rx := KbProperties.default.rx,
    _u_ry := KbProperties.default.ry,
    _legends := fun i => (pySplitNL text12).getD i.val "" }

/-- An object item carrying only an `rx` field (claim C7's witness). -/
def objRxOnly : JsonObj := { JsonObj.empty with rx := some 4 }

/-- The layout `[["A"]]` of claim C8's counterexample. -/
def layoutC8 : List KLERow := [KLERow.row [KLEItem.str "A"]]

/-- The layout `[["\nA"]]` (one key whose legend text starts with an empty
line) of claim C8's counterexample. -/
def layoutC8b : List KLERow := [KLERow.row [KLEItem.str "\nA"]]

/-! Geometry lemmas: the rotation factors are mutually inverse, and the
`get`/`set` pairs of the geometry engine are mutually inverse whenever the
spacing is non-zero. -/

/-- Rotating by an angle and then by its negation is the identity factor. -/
lemma rot_mul_rot_neg (t : ℝ) : rotate_complex t * rotate_complex (-t) = 1 := by
  rw [rotate_complex, rotate_complex, ← Complex.exp_add]
  push_cast
  ring_nf
  exact Complex.exp_zero

/-- Rotating by a negated angle and then by the angle is the identity
factor. -/
lemma rot_neg_mul_rot (t : ℝ) : rotate_complex (-t) * rotate_complex t = 1 := by
  rw [rotate_complex, rotate_complex, ← Complex.exp_add]
  push_cast
  ring_nf
  exact Complex.exp_zero

/-- `get_pos` is the real/imaginary pair of `posC`. -/
lemma get_pos_def (k : KLEKey) : k.get_pos = ⟨(posC k).re, (posC k).im⟩ := rfl

/-- Packing the components of `get_pos` back into a complex number gives
`posC`. -/
lemma toC_get_pos (k : KLEKey) :
    ((k.get_pos.x : ℂ) + (k.get_pos.y : ℂ) * Complex.I) = posC k := by
  rw [get_pos_def]
  exact Complex.re_add_im (posC k)

/-- `set_pos` stores the real/imaginary pair of `storedC`. -/
lemma set_pos_def (k : KLEKey) (x y : ℝ) :
    k.set_pos x y =
      { k with _u_x := (storedC k x y).re, _u_y := (storedC k x y).im } := rfl

/-- The unit offset stored by `set_pos`, as a complex number. -/
lemma uxuyC_set_pos (k : KLEKey) (x y : ℝ) :
    uxuyC (k.set_pos x y) = storedC k x y := by
  rw [set_pos_def]
  exact Complex.re_add_im (storedC k x y)

/-- After `set_pos x y`, the complex position is exactly `x + y*1j`
(spacing non-zero). -/
lemma posC_set_pos (k : KLEKey) (x y : ℝ) (hs : k._spacing ≠ 0) :
    posC (k.set_pos x y) = (x : ℂ) + (y : ℂ) * Complex.I := by
  have hsC : (k._spacing : ℂ) ≠ 0 := Complex.ofReal_ne_zero.mpr hs
  have h1 : rposC (k.set_pos x y) = rposC k := rfl
  have h2 : (k.set_pos x y).r_rad = k.r_rad := rfl
  have h3 : (k.set_pos x y)._spacing = k._spacing := rfl
  rw [posC, uxuyC_set_pos, h1, h2, h3, storedC, mul_assoc, rot_neg_mul_rot,
    mul_one, rposC]
  push_cast
  field_simp
  ring

/-- `get_pos` after `set_pos x y` returns exactly `(x, y)`. -/
lemma get_pos_set_pos (k : KLEKey) (x y : ℝ) (hs : k._spacing ≠ 0) :
    (k.set_pos x y).get_pos = ⟨x, y⟩ := by
  rw [get_pos_def, posC_set_pos k x y hs]
  ext <;> simp

/-- Feeding the current position back into `set_pos` stores the unit offset
already present. -/
lemma storedC_get_pos (k : KLEKey) (hs : k._spacing ≠ 0) :
    storedC k k.get_pos.x k.get_pos.y = uxuyC k := by
  have hsC : (k._spacing : ℂ) ≠ 0 := Complex.ofReal_ne_zero.mpr hs
  have h2 : (((k.get_pos.x / k._spacing - k._u_rx : ℝ)) : ℂ) +
      (((k.get_pos.y / k._spacing - k._u_ry : ℝ)) : ℂ) * Complex.I =
      posC k / (k._spacing : ℂ) - rposC k := by
    rw [← toC_get_pos, rposC]
    push_cast
    ring
  have h3 : posC k / (k._spacing : ℂ) - rposC k =
      uxuyC k * rotate_complex k.r_rad := by
    rw [posC]
    field_simp
  rw [storedC, h2, h3, mul_assoc, rot_mul_rot_neg, mul_one]

/-- `set_pos (get_pos)` is the identity on the whole key. -/
lemma set_pos_get_pos (k : KLEKey) (hs : k._spacing ≠ 0) :
    k.set_pos k.get_pos.x k.get_pos.y = k := by
  rw [set_pos_def, storedC_get_pos k hs]
  have h1 : (uxuyC k).re = k._u_x := by simp [uxuyC]
  have h2 : (uxuyC k).im = k._u_y := by simp [uxuyC]
  rw [h1, h2]

/-- `get_center` is the real/imaginary pair of `centerC`. -/
lemma get_center_def (k : KLEKey) :
    k.get_center = ⟨(centerC k).re, (centerC k).im⟩ := by
  simp only [KLEKey.get_center, centerC, deltaC]
  rw [toC_get_pos]

/-- `set_center` delegates to `set_pos` at the `cornerC` point. -/
lemma set_center_def (k : KLEKey) (x y : ℝ) :
    k.set_center x y = k.set_pos (cornerC k x y).re (cornerC k x y).im := rfl

/-- Packing the components of `get_center` back into a complex number gives
`centerC`. -/
lemma toC_get_center (k : KLEKey) :
    ((k.get_center.x : ℂ) + (k.get_center.y : ℂ) * Complex.I) = centerC k := by
  rw [get_center_def]
  exact Complex.re_add_im (centerC k)

/-- `set_pos` does not move the half-diagonal (it changes only the stored
unit offset). -/
lemma deltaC_set_pos (k : KLEKey) (x y : ℝ) :
    deltaC (k.set_pos x y) = deltaC k := rfl

/-- `get_center` after `set_center x y` returns exactly `(x, y)`. -/
lemma get_center_set_center (k : KLEKey) (x y : ℝ) (hs : k._spacing ≠ 0) :
    (k.set_center x y).get_center = ⟨x, y⟩ := by
  rw [set_center_def, get_center_def]
  have h1 : centerC (k.set_pos (cornerC k x y).re (cornerC k x y).im) =
      (x : ℂ) + (y : ℂ) * Complex.I := by
    rw [centerC, posC_set_pos _ _ _ hs, Complex.re_add_im, deltaC_set_pos,
      cornerC]
    ring
  rw [h1]
  ext <;> simp

/-- `set_center (get_center)` is the identity on the whole key. -/
lemma set_center_get_center (k : KLEKey) (hs : k._spacing ≠ 0) :
    k.set_center k.get_center.x k.get_center.y = k := by
  rw [set_center_def]
  have h : cornerC k k.get_center.x k.get_center.y = posC k := by
    rw [cornerC, toC_get_center, centerC]
    ring
  rw [h]
  exact set_pos_get_pos k hs

/-- `set_angle` stores the new angle and restores the saved center. -/
lemma set_angle_def (k : KLEKey) (a : ℝ) :
    k.set_angle a =
      ({ k with _r := a } : KLEKey).set_center k.get_center.x
        k.get_center.y := rfl

/-- `set_angle` preserves the center. -/
lemma get_center_set_angle (k : KLEKey) (a : ℝ) (hs : k._spacing ≠ 0) :
    (k.set_angle a).get_center = k.get_center := by
  rw [set_angle_def, get_center_set_center ({ k with _r := a } : KLEKey)
    k.get_center.x k.get_center.y hs]

/-- `set_angle` stores the requested angle. -/
lemma set_angle_r (k : KLEKey) (a : ℝ) : (k.set_angle a)._r = a := rfl

/-- `set_angle` preserves the spacing. -/
lemma set_angle_spacing (k : KLEKey) (a : ℝ) :
    (k.set_angle a)._spacing = k._spacing := rfl

/-- `set_center` preserves the spacing. -/
lemma set_center_spacing (k : KLEKey) (x y : ℝ) :
    (k.set_center x y)._spacing = k._spacing := rfl

/-- `set_center` preserves the stored angle. -/
lemma set_center_r (k : KLEKey) (x y : ℝ) : (k.set_center x y)._r = k._r := rfl

/-- Unfolding of one `mirror` loop body. -/
lemma mirrorKey_def (m : Point) (k : KLEKey) :
    KLEKey.mirrorKey m k =
      (k.set_center (m.x * k.get_center.x) (m.y * k.get_center.y)).set_angle
        (-(k.set_center (m.x * k.get_center.x) (m.y * k.get_center.y))._r) :=
  rfl

/-- One `mirror` step negates the stored angle. -/
lemma mirrorKey_r (m : Point) (k : KLEKey) :
    (KLEKey.mirrorKey m k)._r = -k._r := rfl

/-- One `mirror` step preserves the spacing. -/
lemma mirrorKey_spacing (m : Point) (k : KLEKey) :
    (KLEKey.mirrorKey m k)._spacing = k._spacing := rfl

/-- One `mirror` step maps the center to its componentwise reflection. -/
lemma mirrorKey_center (m : Point) (k : KLEKey) (hs : k._spacing ≠ 0) :
    (KLEKey.mirrorKey m k).get_center =
      ⟨m.x * k.get_center.x, m.y * k.get_center.y⟩ := by
  rw [mirrorKey_def, get_center_set_angle
      (k.set_center (m.x * k.get_center.x) (m.y * k.get_center.y)) _
      (show (k.set_center (m.x * k.get_center.x)
        (m.y * k.get_center.y))._spacing ≠ 0 from hs),
    get_center_set_center _ _ _ hs]

/-- Two `mirror` steps along the same axis restore the center and the
stored angle. -/
lemma mirrorKey_mirrorKey (axis : Axis) (k : KLEKey) (hs : k._spacing ≠ 0) :
    (KLEKey.mirrorKey (mirrorVec axis)
        (KLEKey.mirrorKey (mirrorVec axis) k)).get_center = k.get_center ∧
      (KLEKey.mirrorKey (mirrorVec axis)
        (KLEKey.mirrorKey (mirrorVec axis) k))._r = k._r := by
  have hs2 : (KLEKey.mirrorKey (mirrorVec axis) k)._spacing ≠ 0 := hs
  constructor
  · rw [mirrorKey_center _ _ hs2, mirrorKey_center _ _ hs]
    cases axis <;> (ext <;> simp [mirrorVec])
  · rw [mirrorKey_r, mirrorKey_r, neg_neg]

/-- Pointwise statement of the mirror involution over a key list. -/
lemma forall2_mirror (axis : Axis) : ∀ (l : List KLEKey),
    (∀ k ∈ l, 0 < k._spacing) →
    List.Forall₂ (fun k2 k => k2.get_center = k.get_center ∧ k2._r = k._r)
      (l.map (fun k => KLEKey.mirrorKey (mirrorVec axis)
        (KLEKey.mirrorKey (mirrorVec axis) k))) l
  | [], _ => List.Forall₂.nil
  | k :: rest, h => by
    refine List.Forall₂.cons ?_ (forall2_mirror axis rest ?_)
    · exact mirrorKey_mirrorKey axis k
        (ne_of_gt (h k (List.mem_cons_self k rest)))
    · exact fun k2 hk => h k2 (List.mem_cons_of_mem _ hk)

/-! Parser lemmas: every step of `from_json` only appends to the key list
(so already-constructed keys, with their captured property snapshots, are
never modified), and processing a concatenation of row lists is processing
the first list and then the second. -/

/-- One item step only appends to the key list. -/
lemma processItem_keys (st : KLEKeyboard × KeyProperties) (it : KLEItem)
    (st2 : KLEKeyboard × KeyProperties) (h : processItem st it = .ok st2) :
    ∃ t, st2.1.keys = st.1.keys ++ t := by
  cases it with
  | str s =>
    simp only [processItem] at h
    rcases hk : st.1.add_key st.2.x st.2.y st.2.w st.2.h s st.2.decal
        with e | kb
    · rw [hk] at h
      exact absurd h (by simp)
    · rw [hk] at h
      simp only [Except.ok.injEq] at h
      subst h
      simp only [KLEKeyboard.add_key] at hk
      rcases hm : KLEKey.mk? (st.1.cur_x + st.2.x) (st.1.cur_y + st.2.y)
          st.2.w st.2.h s (some st.1.global_props) st.2.decal
          st.1.spacing with e | key
      · rw [hm] at hk
        exact absurd hk (by simp)
      · rw [hm] at hk
        simp only [Except.ok.injEq] at hk
        subst hk
        exact ⟨[key], rfl⟩
  | obj o =>
    simp only [processItem, Except.ok.injEq] at h
    subst h
    refine ⟨[], ?_⟩
    by_cases hx : o.rx.isSome <;> by_cases hy : o.ry.isSome <;>
      simp [hx, hy]

/-- The item loop only appends to the key list. -/
lemma processItems_keys : ∀ (l : List KLEItem)
    (st st2 : KLEKeyboard × KeyProperties),
    processItems st l = .ok st2 → ∃ t, st2.1.keys = st.1.keys ++ t
  | [], st, st2, h => by
    simp only [processItems, Except.ok.injEq] at h
    subst h
    exact ⟨[], by simp⟩
  | it :: rest, st, st2, h => by
    simp only [processItems] at h
    rcases hi : processItem st it with e | stm
    · rw [hi] at h
      exact absurd h (by simp)
    · rw [hi] at h
      obtain ⟨t1, h1⟩ := processItem_keys st it stm hi
      obtain ⟨t2, h2⟩ := processItems_keys rest stm st2 h
      exact ⟨t1 ++ t2, by rw [h2, h1, List.append_assoc]⟩

/-- One row step only appends to the key list. -/
lemma processRow_keys (st : KLEKeyboard × KeyProperties) (row : KLERow)
    (st2 : KLEKeyboard × KeyProperties) (h : processRow st row = .ok st2) :
    ∃ t, st2.1.keys = st.1.keys ++ t := by
  cases row with
  | meta m =>
    simp only [processRow, Except.ok.injEq] at h
    subst h
    exact ⟨[], by simp⟩
  | row items =>
    simp only [processRow] at h
    rcases hi : processItems st items with e | stm
    · rw [hi] at h
      exact absurd h (by simp)
    · rw [hi] at h
      simp only [Except.ok.injEq] at h
      subst h
      obtain ⟨t, ht⟩ := processItems_keys items st stm hi
      exact ⟨t, by simpa [KLEKeyboard.add_row] using ht⟩

/-- The row loop only appends to the key list. -/
lemma processRows_keys : ∀ (l : List KLERow)
    (st st2 : KLEKeyboard × KeyProperties),
    processRows st l = .ok st2 → ∃ t, st2.1.keys = st.1.keys ++ t
  | [], st, st2, h => by
    simp only [processRows, Except.ok.injEq] at h
    subst h
    exact ⟨[], by simp⟩
  | row :: rest, st, st2, h => by
    simp only [processRows] at h
    rcases hi : processRow st row with e | stm
    · rw [hi] at h
      exact absurd h (by simp)
    · rw [hi] at h
      obtain ⟨t1, h1⟩ := processRow_keys st row stm hi
      obtain ⟨t2, h2⟩ := processRows_keys rest stm st2 h
      exact ⟨t1 ++ t2, by rw [h2, h1, List.append_assoc]⟩

/-- The row loop over a concatenation runs the first list, then (on
success) the second from the reached state. -/
lemma processRows_append : ∀ (l1 : List KLERow)
    (st : KLEKeyboard × KeyProperties) (l2 : List KLERow),
    processRows st (l1 ++ l2) =
      (match processRows st l1 with
        | .error e => .error e
        | .ok st2 => processRows st2 l2)
  | [], st, l2 => by simp [processRows]
  | row :: rest, st, l2 => by
    simp only [List.cons_append, processRows]
    rcases hi : processRow st row with e | stm
    · rfl
    · exact processRows_append rest stm l2

/-! Claim theorems. -/

/-- Claim C1: for every key (any rotation angle, any rotation origin) with
spacing `s > 0`, `get_pos` after `set_pos p` returns exactly `p` for every
target point `p`, and `set_pos (get_pos)` leaves the stored unit
coordinates `_u_x`, `_u_y` unchanged. -/
theorem claim_C1 (k : KLEKey) (p : Point) (hs : 0 < k._spacing) :
    (k.set_pos p.x p.y).get_pos = p ∧
      (k.set_pos k.get_pos.x k.get_pos.y)._u_x = k._u_x ∧
      (k.set_pos k.get_pos.x k.get_pos.y)._u_y = k._u_y := by
  have hs' : k._spacing ≠ 0 := ne_of_gt hs
  refine ⟨?_, ?_, ?_⟩
  · rw [get_pos_set_pos k p.x p.y hs']
  · rw [set_pos_get_pos k hs']
  · rw [set_pos_get_pos k hs']

/-- Claim C1, instantiated at `sampleKey` and the target point (3, 4). -/
theorem claim_C1_wit :
    0 < sampleKey._spacing ∧
      ((sampleKey.set_pos (Point.mk 3 4).x (Point.mk 3 4).y).get_pos =
          Point.mk 3 4 ∧
        (sampleKey.set_pos sampleKey.get_pos.x
          sampleKey.get_pos.y)._u_x = sampleKey._u_x ∧
        (sampleKey.set_pos sampleKey.get_pos.x
          sampleKey.get_pos.y)._u_y = sampleKey._u_y) :=
  ⟨by norm_num [sampleKey], claim_C1 sampleKey (Point.mk 3 4)
    (by norm_num [sampleKey])⟩

/-- Claim C2: parsing `[["A","B"], [{"w":2}, "C"]]` yields exactly the keys
A, B, C in creation order, with stored unit positions (0,0), (1,0), (0,1)
and unit widths 1, 1, 2 (the cursor x-coordinate having reset to 0 at the
start of the second row). -/
theorem claim_C2 :
    ((KLEKeyboard.from_json layoutC2 19).map (fun kb =>
        kb.keys.map (fun k => (k.get_legend 0, k._u_x, k._u_y, k._u_w))) =
      .ok [("A", 0, 0, 1), ("B", 1, 0, 1), ("C", 0, 1, 2)]) ∧
    (KLEKeyboard.from_json layoutC2 19).map (fun kb => kb.keys.length) =
      .ok 3 := by
  have sA : pySplitNL "A" = ["A"] := by decide
  have sB : pySplitNL "B" = ["B"] := by decide
  have sC : pySplitNL "C" = ["C"] := by decide
  constructor <;>
    simp [KLEKeyboard.from_json, processRows, processRow, processItems,
      processItem, KLEKeyboard.add_key, KLEKey.mk?, KLEKeyboard.add_row,
      KLEKeyboard.init, KeyProperties.default, KeyProperties.from_json,
      KbProperties.update, KbProperties.default, JsonObj.empty, max_legends,
      LEGEND_MAP, KLEKey.get_legend, sA, sB, sC, layoutC2, Except.map]

/-- Claim C3: parsing `[[{"r":15},"A","B"], ["C"], [{"r":30},"D"]]` captures
rotation angle 15 into the snapshot (both the stored `_r` and the private
`properties.r` copy) of keys A, B and of key C in the later row, and 30
only from D on; and, in general, parsing additional rows after any prefix
only appends new keys, never modifying the keys (hence the snapshots) the
prefix already constructed. -/
theorem claim_C3 :
    ((KLEKeyboard.from_json layoutC3 19).map (fun kb =>
        kb.keys.map (fun k => (k._r, k.properties.r))) =
      .ok [((15 : ℝ), (15 : ℝ)), (15, 15), (15, 15), (30, 30)]) ∧
    ∀ (l1 l2 : List KLERow) (s : ℝ) (kb2 : KLEKeyboard),
      KLEKeyboard.from_json (l1 ++ l2) s = .ok kb2 →
      ∃ kb1, KLEKeyboard.from_json l1 s = .ok kb1 ∧
        ∃ t, kb2.keys = kb1.keys ++ t := by
  constructor
  · have sA : pySplitNL "A" = ["A"] := by decide
    have sB : pySplitNL "B" = ["B"] := by decide
    have sC : pySplitNL "C" = ["C"] := by decide
    have sD : pySplitNL "D" = ["D"] := by decide
    simp [KLEKeyboard.from_json, processRows, processRow, processItems,
      processItem, KLEKeyboard.add_key, KLEKey.mk?, KLEKeyboard.add_row,
      KLEKeyboard.init, KeyProperties.default, KeyProperties.from_json,
      KbProperties.update, KbProperties.default, JsonObj.empty, max_legends,
      LEGEND_MAP, sA, sB, sC, sD, layoutC3, Except.map]
  · intro l1 l2 s kb2 h
    simp only [KLEKeyboard.from_json] at h ⊢
    rw [processRows_append] at h
    rcases h1 : processRows (KLEKeyboard.init s, KeyProperties.default) l1
        with e | st1
    · rw [h1] at h
      exact absurd h (by simp)
    · rw [h1] at h
      dsimp only at h ⊢
      rcases h2 : processRows st1 l2 with e | st2
      · rw [h2] at h
        exact absurd h (by simp)
      · rw [h2] at h
        simp only [Except.ok.injEq] at h
        subst h
        obtain ⟨t, ht⟩ := processRows_keys l2 st1 st2 h2
        exact ⟨st1.1, rfl, t, ht⟩

/-- Claim C3, second part instantiated at the empty prefix and empty
suffix. -/
theorem claim_C3_wit :
    (KLEKeyboard.from_json ([] ++ []) 1 = .ok emptyKb) ∧
      ∃ kb1, KLEKeyboard.from_json [] 1 = .ok kb1 ∧
        ∃ t, emptyKb.keys = kb1.keys ++ t :=
  ⟨rfl, claim_C3.2 [] [] 1 emptyKb rfl⟩

/-- Claim C4: for every keyboard whose keys all have positive spacing (the
specification's `spacing > 0` invariant) and either axis, mirroring twice
restores every key's center and stored rotation angle. -/
theorem claim_C4 (kb : KLEKeyboard) (axis : Axis)
    (hs : ∀ k ∈ kb.keys, 0 < k._spacing) :
    List.Forall₂ (fun k2 k => k2.get_center = k.get_center ∧ k2._r = k._r)
      ((kb.mirror axis).mirror axis).keys kb.keys := by
  show List.Forall₂ _
    ((kb.keys.map (KLEKey.mirrorKey (mirrorVec axis))).map
      (KLEKey.mirrorKey (mirrorVec axis))) kb.keys
  rw [List.map_map]
  exact forall2_mirror axis kb.keys hs

/-- Claim C4, instantiated at the one-key keyboard `sampleKb` and the
x axis. -/
theorem claim_C4_wit :
    (∀ k ∈ sampleKb.keys, 0 < k._spacing) ∧
      List.Forall₂ (fun k2 k => k2.get_center = k.get_center ∧ k2._r = k._r)
        ((sampleKb.mirror Axis.x).mirror Axis.x).keys sampleKb.keys :=
  ⟨by simp [sampleKb, sampleKey],
   claim_C4 sampleKb Axis.x (by simp [sampleKb, sampleKey])⟩

/-- Claim C5: for every key with positive spacing, `set_center (get_center)`
is the identity on the whole stored key, and `set_angle a` preserves
`get_center` for every new angle `a`. -/
theorem claim_C5 (k : KLEKey) (hs : 0 < k._spacing) :
    k.set_center k.get_center.x k.get_center.y = k ∧
      ∀ a : ℝ, (k.set_angle a).get_center = k.get_center := by
  have hs' : k._spacing ≠ 0 := ne_of_gt hs
  exact ⟨set_center_get_center k hs', fun a => get_center_set_angle k a hs'⟩

/-- Claim C5, instantiated at `sampleKey`. -/
theorem claim_C5_wit :
    0 < sampleKey._spacing ∧
      (sampleKey.set_center sampleKey.get_center.x
          sampleKey.get_center.y = sampleKey ∧
        ∀ a : ℝ, (sampleKey.set_angle a).get_center =
          sampleKey.get_center) :=
  ⟨by norm_num [sampleKey], claim_C5 sampleKey (by norm_num [sampleKey])⟩

/-- Claim C6: constructing a key from a legend text with 13 newline
segments fails — but the raised object is a bare `Exception` wrapping the
`KLEParseError` instance (`raise Exception(KLEParseError(...))` in the
source), not a raised `KLEParseError`; a text with exactly 12 segments is
accepted and every segment is retrievable unchanged from its slot. -/
theorem claim_C6 :
    (KLEKey.mk? 0 0 1 1 text13 none false 19 =
      .error (PyErr.exception
        ⟨"Too many legends for key. Got 13, max is 12"⟩)) ∧
    (∃ k, KLEKey.mk? 0 0 1 1 text12 none false 19 = .ok k ∧
      (List.finRange 12).map k.get_legend =
        ["a", "b", "c", "d", "e", "f", "g", "h", "i", "j", "k", "l"]) := by
  have s13 : pySplitNL text13 =
      ["a", "b", "c", "d", "e", "f", "g", "h", "i", "j", "k", "l", "m"] := by
    decide
  constructor
  · simp [KLEKey.mk?, s13, max_legends, LEGEND_MAP]
    decide
  · refine ⟨key12, ?_, ?_⟩
    · rfl
    · simp only [KLEKey.get_legend, key12]
      decide

/-- Claim C7: an object item containing `rx` resets the column cursor to 0,
one containing `ry` resets the vertical cursor to 0, and each cursor is
left untouched when the corresponding field is absent (in particular `ry`
alone never moves the column cursor). -/
theorem claim_C7 (kb : KLEKeyboard) (props : KeyProperties) (o : JsonObj) :
    ∃ kb2 props2, processItem (kb, props) (.obj o) = .ok (kb2, props2) ∧
      (o.rx.isSome → kb2.cur_x = 0) ∧
      (o.ry.isSome → kb2.cur_y = 0) ∧
      (o.rx = none → kb2.cur_x = kb.cur_x) ∧
      (o.ry = none → kb2.cur_y = kb.cur_y) := by
  refine ⟨_, _, rfl, ?_, ?_, ?_, ?_⟩ <;>
    intro h <;>
    by_cases hx : o.rx.isSome <;> by_cases hy : o.ry.isSome <;>
    simp_all

/-- Claim C7, instantiated at a fresh keyboard and an object item carrying
only `rx`. -/
theorem claim_C7_wit :
    ∃ kb2 props2,
      processItem (KLEKeyboard.init 19, KeyProperties.default)
          (.obj objRxOnly) = .ok (kb2, props2) ∧
        (objRxOnly.rx.isSome → kb2.cur_x = 0) ∧
        (objRxOnly.ry.isSome → kb2.cur_y = 0) ∧
        (objRxOnly.rx = none → kb2.cur_x = (KLEKeyboard.init 19).cur_x) ∧
        (objRxOnly.ry = none → kb2.cur_y = (KLEKeyboard.init 19).cur_y) :=
  claim_C7 (KLEKeyboard.init 19) KeyProperties.default objRxOnly

/-- Claim C8 as stated is false: serializing the single default-geometry
key parsed from `[["A"]]` emits x, y, w and h even though all four are at
their default values, and also emits rx and ry, which are outside the
claimed field set x,y,w,h,x2,y2,w2,h2; moreover a legend whose first slot
is empty (from text "\nA") serializes to "A" — the leading empty line is
trimmed too, not only trailing ones. -/
theorem claim_C8_counterexample :
    (∃ kb, KLEKeyboard.from_json layoutC8 19 = .ok kb ∧
      kb.to_json = [KLEOutEntry.key
        [("x", (0 : ℝ)), ("y", 0), ("w", 1), ("h", 1), ("rx", 0), ("ry", 0)]
        "A"]) ∧
    "rx" ∉ ["x", "y", "w", "h", "x2", "y2", "w2", "h2"] ∧
    KeyProperties.default.x = 0 ∧
    (∃ kb, KLEKeyboard.from_json layoutC8b 19 = .ok kb ∧
      kb.to_json = [KLEOutEntry.key
        [("x", (0 : ℝ)), ("y", 0), ("w", 1), ("h", 1), ("rx", 0), ("ry", 0)]
        "A"]) := by
  have sA : pySplitNL "A" = ["A"] := by decide
  have sNA : pySplitNL "\nA" = ["", "A"] := by decide
  refine ⟨⟨_, rfl, ?_⟩, by decide, rfl, ⟨_, rfl, ?_⟩⟩
  · simp [KLEKeyboard.from_json, processRows, processRow, processItems,
      processItem, KLEKeyboard.add_key, KLEKey.mk?, KLEKeyboard.add_row,
      KLEKeyboard.init, KeyProperties.default, KbProperties.default,
      max_legends, LEGEND_MAP, sA, layoutC8, KLEKeyboard.to_json,
      KLEKey.get_properties, KeyProperties.to_json, optField,
      KLEKey.get_legend_str]
    decide
  · simp [KLEKeyboard.from_json, processRows, processRow, processItems,
      processItem, KLEKeyboard.add_key, KLEKey.mk?, KLEKeyboard.add_row,
      KLEKeyboard.init, KeyProperties.default, KbProperties.default,
      max_legends, LEGEND_MAP, sNA, layoutC8b, KLEKeyboard.to_json,
      KLEKey.get_properties, KeyProperties.to_json, optField,
      KLEKey.get_legend_str]
    decide

/-- Claim C8, amended to what the code does: `to_json` emits the metadata
object first exactly when the metadata is non-empty, then for every key in
creation order a pair whose first element always contains the six fields
x, y, w, h, rx, ry (the stored unit values, defaults included) and never
x2, y2, w2, h2, and whose second element is the 12 legend slots joined by
newlines with empty lines trimmed from both ends. -/
theorem claim_C8_amended (kb : KLEKeyboard) :
    kb.to_json =
      (match kb.metadata with
        | [] => ([] : List KLEOutEntry)
        | _ => [KLEOutEntry.meta kb.metadata]) ++
      kb.keys.map (fun k => KLEOutEntry.key
        [("x", k._u_x), ("y", k._u_y), ("w", k._u_w), ("h", k._u_h),
         ("rx", k._u_rx), ("ry", k._u_ry)]
        (pyStrip (Char.ofNat 10)
          ((List.finRange 12).foldl
            (fun acc i => acc ++ k._legends i ++ "\x0a") ""))) := by
  simp [KLEKeyboard.to_json, KLEKey.get_properties, KeyProperties.to_json,
    optField, KeyProperties.default, KLEKey.get_legend_str]

/-- Claim C9: for every key, the bounding box has non-negative width and
height and contains every one of the four corner points. -/
theorem claim_C9 (k : KLEKey) (p : Point) (hp : p ∈ k.get_rect_points) :
    0 ≤ k.bounding_box.w ∧ 0 ≤ k.bounding_box.h ∧
      k.bounding_box.containsPt p := by
  obtain ⟨p0, p1, p2, p3, hpts⟩ :
      ∃ a b c d, k.get_rect_points = [a, b, c, d] := ⟨_, _, _, _, rfl⟩
  have hbb : k.bounding_box =
      ⟨min (min (min (min p0.x p0.x) p1.x) p2.x) p3.x,
       min (min (min (min p0.y p0.y) p1.y) p2.y) p3.y,
       max (max (max (max p0.x p0.x) p1.x) p2.x) p3.x -
         min (min (min (min p0.x p0.x) p1.x) p2.x) p3.x,
       max (max (max (max p0.y p0.y) p1.y) p2.y) p3.y -
         min (min (min (min p0.y p0.y) p1.y) p2.y) p3.y⟩ := by
    simp [KLEKey.bounding_box, hpts]
  have hmin : ∀ a b c d : ℝ,
      (min (min (min (min a a) b) c) d ≤ a ∧
       min (min (min (min a a) b) c) d ≤ b ∧
       min (min (min (min a a) b) c) d ≤ c ∧
       min (min (min (min a a) b) c) d ≤ d) := by
    intro a b c d
    refine ⟨?_, ?_, ?_, ?_⟩ <;> simp [min_le_iff]
  have hmax : ∀ a b c d : ℝ,
      (a ≤ max (max (max (max a a) b) c) d ∧
       b ≤ max (max (max (max a a) b) c) d ∧
       c ≤ max (max (max (max a a) b) c) d ∧
       d ≤ max (max (max (max a a) b) c) d) := by
    intro a b c d
    refine ⟨?_, ?_, ?_, ?_⟩ <;> simp [le_max_iff]
  rw [hpts] at hp
  rw [hbb]
  have hwx : 0 ≤ max (max (max (max p0.x p0.x) p1.x) p2.x) p3.x -
      min (min (min (min p0.x p0.x) p1.x) p2.x) p3.x :=
    sub_nonneg.mpr (le_trans (hmin p0.x p1.x p2.x p3.x).1
      (hmax p0.x p1.x p2.x p3.x).1)
  have hwy : 0 ≤ max (max (max (max p0.y p0.y) p1.y) p2.y) p3.y -
      min (min (min (min p0.y p0.y) p1.y) p2.y) p3.y :=
    sub_nonneg.mpr (le_trans (hmin p0.y p1.y p2.y p3.y).1
      (hmax p0.y p1.y p2.y p3.y).1)
  refine ⟨hwx, hwy, ?_⟩
  have hsum : ∀ a b : ℝ, a + (b - a) = b := by
    intro a b
    ring
  simp only [Rect.containsPt, hsum]
  simp only [List.mem_cons, List.not_mem_nil, or_false] at hp
  rcases hp with rfl | rfl | rfl | rfl
  · exact ⟨(hmin _ _ _ _).1, (hmax _ _ _ _).1, (hmin _ _ _ _).1,
      (hmax _ _ _ _).1⟩
  · exact ⟨(hmin _ _ _ _).2.1, (hmax _ _ _ _).2.1, (hmin _ _ _ _).2.1,
      (hmax _ _ _ _).2.1⟩
  · exact ⟨(hmin _ _ _ _).2.2.1, (hmax _ _ _ _).2.2.1,
      (hmin _ _ _ _).2.2.1, (hmax _ _ _ _).2.2.1⟩
  · exact ⟨(hmin _ _ _ _).2.2.2, (hmax _ _ _ _).2.2.2,
      (hmin _ _ _ _).2.2.2, (hmax _ _ _ _).2.2.2⟩

/-- Claim C9, instantiated at `sampleKey` and its first corner point. -/
theorem claim_C9_wit :
    sampleKey.get_rect_points.headD ⟨0, 0⟩ ∈ sampleKey.get_rect_points ∧
      (0 ≤ sampleKey.bounding_box.w ∧ 0 ≤ sampleKey.bounding_box.h ∧
        sampleKey.bounding_box.containsPt
          (sampleKey.get_rect_points.headD ⟨0, 0⟩)) :=
  ⟨by simp [KLEKey.get_rect_points],
   claim_C9 sampleKey _ (by simp [KLEKey.get_rect_points])⟩

/-- Claim C10: for each of the three optional arguments of `set_u_pos`
individually — the other two being arbitrary (omitted, zero or non-zero) —
passing `0` behaves exactly like omitting the argument: the whole resulting
key is the same as with `none`, so in particular the stored angle
(resp. rotation-origin coordinate) is unchanged; and any non-zero value
overwrites the corresponding stored field. -/
theorem claim_C10 (k : KLEKey) (ux uy : ℝ) (r u_rx u_ry : Option ℝ) :
    (k.set_u_pos ux uy (some 0) u_rx u_ry =
        k.set_u_pos ux uy none u_rx u_ry) ∧
      (k.set_u_pos ux uy r (some 0) u_ry = k.set_u_pos ux uy r none u_ry) ∧
      (k.set_u_pos ux uy r u_rx (some 0) = k.set_u_pos ux uy r u_rx none) ∧
      (k.set_u_pos ux uy (some 0) u_rx u_ry)._r = k._r ∧
      (k.set_u_pos ux uy r (some 0) u_ry)._u_rx = k._u_rx ∧
      (k.set_u_pos ux uy r u_rx (some 0))._u_ry = k._u_ry ∧
      ∀ v : ℝ, v ≠ 0 →
        (k.set_u_pos ux uy (some v) u_rx u_ry)._r = v ∧
        (k.set_u_pos ux uy r (some v) u_ry)._u_rx = v ∧
        (k.set_u_pos ux uy r u_rx (some v))._u_ry = v := by
  refine ⟨by simp [KLEKey.set_u_pos], by simp [KLEKey.set_u_pos],
    by simp [KLEKey.set_u_pos], by simp [KLEKey.set_u_pos],
    by simp [KLEKey.set_u_pos], by simp [KLEKey.set_u_pos], ?_⟩
  intro v hv
  refine ⟨?_, ?_, ?_⟩ <;> simp [KLEKey.set_u_pos, hv]

/-- Claim C10, instantiated at `sampleKey` with the non-zero value 5 and a
mixed surrounding call (`r` omitted, `u_rx = 7`, `u_ry = 0`). -/
theorem claim_C10_wit :
    (5 : ℝ) ≠ 0 ∧
      ((sampleKey.set_u_pos 1 2 (some 5) (some 7) (some 0))._r = 5 ∧
        (sampleKey.set_u_pos 1 2 none (some 5) (some 0))._u_rx = 5 ∧
        (sampleKey.set_u_pos 1 2 none (some 7) (some 5))._u_ry = 5) :=
  ⟨by norm_num,
   (claim_C10 sampleKey 1 2 none (some 7) (some 0)).2.2.2.2.2.2 5
     (by norm_num)⟩

end KLE
